import Mathlib

/-!
Verification development for `main.go` (valkey client with IAM token auth)

Shallow embedding of the three functions of the connection core:

* `parseX509Certificate` (trust anchor loader),
* `retrieveTokenFunc` (auth bridge),
* `run` (client set-up and session loop).

Go packages used by the program (`strings`, `encoding/pem`, `crypto/x509`,
`oauth2`, `valkey-go`, `fmt`, `time`) are not part of the program.  Pure
library calls whose behaviour matters (`strings.ReplaceAll`) are given
executable definitions; all other library calls are parameters, and the
stateful ones thread an explicit world state.
-/

namespace Valkey

/-! ## Go values -/

/-- Go `string` and `[]byte` values: finite byte sequences (not necessarily valid UTF-8). -/
abbrev GoString := List UInt8

/-- The bytes of an ASCII string literal of the source text. -/
def str (s : String) : GoString := s.toList.map (fun c => UInt8.ofNat c.toNat)

/-- Go `error` values reachable in this program.  `lib e` is an error value produced
inside a library (its payload `e` is abstract), `errorsNew text` is the value allocated by
`errors.New(text)`, and `errorf before err` is the value of `fmt.Errorf(before + "%w", err)`.
A nil `error` is `none : Option (GoError E)`. -/
inductive GoError (E : Type) where
  | lib (e : E)
  | errorsNew (text : GoString)
  | errorf (before : GoString) (err : GoError E)
  deriving DecidableEq, Repr

namespace GoError

/-- The method `Error()`: the message of an error value, given the messages of library errors. -/
def Error {E : Type} (msg : E → GoString) : GoError E → GoString
  | lib e => msg e
  | errorsNew text => text
  | errorf before err => before ++ Error msg err

/-- The function `errors.Unwrap` on the errors built by this program: only `fmt.Errorf` with
`%w` yields a value with an `Unwrap` method. -/
def Unwrap {E : Type} : GoError E → Option (GoError E)
  | errorf _ err => some err
  | _ => none

/-- An error value that this program built itself (with `errors.New` or `fmt.Errorf`), as
opposed to a library error handed on as it was received. -/
def hasContext {E : Type} : GoError E → Bool
  | lib _ => false
  | _ => true

end GoError

/-! ## `strings.ReplaceAll` -/

/-- Left-to-right scan of `strings.Replace(s, old, new, -1)` for a non-empty `old`: at each
position where `old` occurs, emit `new` and skip the bytes of `old` (the first argument counts
the bytes still to skip); otherwise copy the byte. -/
def replaceScan (old new : GoString) : Nat → GoString → GoString
  | _, [] => []
  | skip + 1, _ :: cs => replaceScan old new skip cs
  | 0, c :: cs =>
    if old.isPrefixOf (c :: cs) then new ++ replaceScan old new (old.length - 1) cs
    else c :: replaceScan old new 0 cs

/-- The library function `strings.ReplaceAll(s, old, new)` for non-empty `old` (the program
calls it with the two-byte `old` = backslash, `n`): every non-overlapping occurrence of `old`,
leftmost first, is replaced by `new`. -/
def ReplaceAll (s old new : GoString) : GoString :=
  if old = new then s else replaceScan old new 0 s

/-! ## Trust anchor loader -/

/-- A `pem.Block`. -/
structure Block where
  Type_ : GoString
  Headers : List (GoString × GoString)
  Bytes : List UInt8
  deriving DecidableEq, Repr

/-- The two library functions used by `parseX509Certificate`, with their Go signatures:
`pem.Decode(data) (p *Block, rest []byte)` and
`x509.ParseCertificate(der) (*Certificate, error)`. -/
structure CertLib (Cert E : Type) where
  Decode : List UInt8 → Option Block × List UInt8
  ParseCertificate : List UInt8 → Option Cert × Option E

/-- The error value of line 158. -/
def errNoPemBlock {E : Type} : GoError E :=
  .errorsNew (str "failed to find a suitable pem block type")

/-- The function `parseX509Certificate` (lines 151-163). -/
def parseX509Certificate {Cert E : Type} (L : CertLib Cert E) (s : GoString) :
    Option Cert × Option (GoError E) :=
  -- Replace "\n" by line breaks in case the certificate was provided as a one liner
  let s := ReplaceAll s [0x5c, 0x6e] [0x0a]
  -- Decode the certificate chain
  match (L.Decode s).1 with
  | none => (none, some errNoPemBlock)
  | some block =>
    if block.Type_ ≠ str "CERTIFICATE" then (none, some errNoPemBlock)
    else
      -- Parse the certificate chain
      let r := L.ParseCertificate block.Bytes
      (r.1, r.2.map GoError.lib)

/-! ## Auth bridge -/

/-- An `oauth2.Token`: the access value read by the program and the expiry instant that the
token declares (instants are counted in nanoseconds from a fixed origin). -/
structure Token where
  AccessToken : GoString
  Expiry : Nat
  deriving DecidableEq, Repr

/-- An `oauth2.TokenSource`: its one method `Token() (*Token, error)` returns a token or an
error and may change the state `σ` of the world (caches, the identity backend, the clock). -/
structure TokenSource (σ E : Type) where
  Token : σ → Except E Token × σ

/-- The argument type `valkey.AuthCredentialsContext`. -/
structure AuthCredentialsContext where
  Address : GoString
  deriving DecidableEq, Repr

/-- The result type `valkey.AuthCredentials`; its zero value has two empty strings. -/
structure AuthCredentials where
  Username : GoString := []
  Password : GoString := []
  deriving DecidableEq, Repr

/-- The function `retrieveTokenFunc` (lines 130-141).  The package variable `tokenSource`
that it reads is the first argument. -/
def retrieveTokenFunc {σ E : Type} (tokenSource : TokenSource σ E)
    (_ : AuthCredentialsContext) (w : σ) : (AuthCredentials × Option (GoError E)) × σ :=
  let authCredentials : AuthCredentials := {}
  match tokenSource.Token w with
  | (.error err, w) =>
    ((authCredentials, some (.errorf (str "Failed to get token: ") (.lib err))), w)
  | (.ok token, w) =>
    let authCredentials : AuthCredentials :=
      { Username := str "default", Password := token.AccessToken }
    ((authCredentials, none), w)

/-- Successive invocations of `retrieveTokenFunc`, one per handshake context, each starting
in the world state the previous one left. -/
def invocations {σ E : Type} (tokenSource : TokenSource σ E) :
    List AuthCredentialsContext → σ → List (AuthCredentials × Option (GoError E)) × σ
  | [], w => ([], w)
  | c :: cs, w =>
    let (r, w) := retrieveTokenFunc tokenSource c w
    let (rs, w) := invocations tokenSource cs w
    (r :: rs, w)

/-- The first `n` responses of a token source asked `n` times in a row. -/
def responses {σ E : Type} (tokenSource : TokenSource σ E) :
    Nat → σ → List (Except E Token) × σ
  | 0, w => ([], w)
  | n + 1, w =>
    let (r, w) := tokenSource.Token w
    let (rs, w) := responses tokenSource n w
    (r :: rs, w)

/-- The same token source with a counter of the `Token()` requests made so far. -/
def TokenSource.counting {σ E : Type} (ts : TokenSource σ E) : TokenSource (σ × Nat) E where
  Token := fun (w, n) => let (r, w) := ts.Token w; (r, (w, n + 1))

/-- A mocked token source that hands out the tokens of a list, one per request, and fails with
`exhausted` afterwards; its state is the number of requests answered. -/
def mockTokenSource {E : Type} (tokens : List Token) (exhausted : E) : TokenSource Nat E where
  Token := fun n =>
    match tokens.get? n with
    | some t => (.ok t, n + 1)
    | none => (.error exhausted, n + 1)

/-- A credential is fresh at instant `now` for a token source in state `w` when its secret is
the access value of the token the source hands out there and that token expires after `now`. -/
def freshAt {σ E : Type} (tokenSource : TokenSource σ E) (w : σ) (now : Nat)
    (c : AuthCredentials) : Prop :=
  ∃ t : Token, (tokenSource.Token w).1 = .ok t ∧ c.Password = t.AccessToken ∧ now < t.Expiry

/-! ## Client session -/

/-- The field values of `valkey.ClientOption` set by `run`. -/
structure ClientOption (σ Pool E : Type) where
  InitAddress : List GoString
  RootCAs : Pool
  AuthCredentialsFn : AuthCredentialsContext → σ → (AuthCredentials × Option (GoError E)) × σ

/-- The libraries and services `run` talks to.  `σ` is the state of the world, `ρ` the type
`valkey.ValkeyResult`, `Pool` the type `*x509.CertPool`.  A built command is the list of its
words. -/
structure World (σ ρ Cert Pool E : Type) where
  NewCertPool : Pool
  AddCert : Pool → Cert → Pool
  DefaultTokenSource : GoString → σ → Except E (TokenSource σ E) × σ
  NewClient : ClientOption σ Pool E → σ → Option E × σ
  Do : List GoString → σ → ρ × σ
  Error : ρ → Option E
  ToString : ρ → GoString × Option E
  Println : List GoString → σ → σ
  Sleep : Nat → σ → σ
  Close : σ → σ

/-- The type `config`. -/
structure config (Cert : Type) where
  addr : GoString
  rootCAs : List Cert

/-- What `run` does with the created client and the standard output, in order. -/
inductive Event (ρ : Type) where
  | Do (cmd : List GoString) (result : ρ)
  | Println (args : List GoString)
  | Sleep (ns : Nat)
  | Close
  deriving DecidableEq, Repr

/-- How far an execution got: still in the loop when the fuel ran out, or returned. -/
inductive Ret (E : Type) where
  | running
  | returned (err : Option (GoError E))
  deriving DecidableEq, Repr

/-- The command built by `client.B().Set().Key("key").Value("OK").Build()`. -/
def cmdSet : List GoString := [str "SET", str "key", str "OK"]

/-- The command built by `client.B().Get().Key("key").Build()`. -/
def cmdGet : List GoString := [str "GET", str "key"]

/-- The duration `1 * time.Second` in nanoseconds. -/
def second : Nat := 1000000000

/-- The `for` loop of `run` (lines 113-125), run for at most `fuel` iterations. -/
def sessionLoop {σ ρ Cert Pool E : Type} (W : World σ ρ Cert Pool E) :
    Nat → σ → Ret E × List (Event ρ) × σ
  | 0, w => (.running, [], w)
  | fuel + 1, w =>
    let (r1, w) := W.Do cmdSet w
    match W.Error r1 with
    | some err =>
      (.returned (some (.errorf (str "Failed to set key/value: ") (.lib err))),
        [.Do cmdSet r1], w)
    | none =>
      let (r2, w) := W.Do cmdGet w
      match W.ToString r2 with
      | (_, some err) =>
        (.returned (some (.errorf (str "Failed to get string: ") (.lib err))),
          [.Do cmdSet r1, .Do cmdGet r2], w)
      | (res, none) =>
        let w := W.Println [str "Value: ", res] w
        let w := W.Sleep second w
        let (ret, tr, w) := sessionLoop W fuel w
        (ret, .Do cmdSet r1 :: .Do cmdGet r2 :: .Println [str "Value: ", res] ::
          .Sleep second :: tr, w)

/-- The function `run` (lines 87-127), its loop run for at most `fuel` iterations.  The
deferred `client.Close()` runs when the function returns after the client was created. -/
def run {σ ρ Cert Pool E : Type} (W : World σ ρ Cert Pool E) (cfg : config Cert)
    (fuel : Nat) (w : σ) : Ret E × List (Event ρ) × σ :=
  let caCertPool := cfg.rootCAs.foldl W.AddCert W.NewCertPool
  match W.DefaultTokenSource (str "https://www.googleapis.com/auth/cloud-platform") w with
  | (.error err, w) =>
    (.returned (some (.errorf (str "Failed to get default token source: ") (.lib err))), [], w)
  | (.ok tokenSource, w) =>
    -- Initialize Valkey client with token refresh logic
    match W.NewClient
        { InitAddress := [cfg.addr], RootCAs := caCertPool,
          AuthCredentialsFn := retrieveTokenFunc tokenSource } w with
    | (some err, w) =>
      (.returned (some (.errorf (str "Failed to create client: ") (.lib err))), [], w)
    | (none, w) =>
      match sessionLoop W fuel w with
      | (.running, tr, w) => (.running, tr, w)
      | (.returned err, tr, w) => (.returned err, tr ++ [.Close], W.Close w)

/-- A connection layer that answers the operations from a script: the `i`-th operation
issued gets the result `script i`.  The state counts the operations issued so far. -/
def scripted {ρ Cert E : Type} (script : Nat → ρ) (Error : ρ → Option E)
    (ToString : ρ → GoString × Option E) (tokenSource : TokenSource Nat E) :
    World Nat ρ Cert Unit E where
  NewCertPool := ()
  AddCert := fun _ _ => ()
  DefaultTokenSource := fun _ w => (.ok tokenSource, w)
  NewClient := fun _ w => (none, w)
  Do := fun _ n => (script n, n + 1)
  Error := Error
  ToString := ToString
  Println := fun _ w => w
  Sleep := fun _ w => w
  Close := fun w => w

/-- The error, if any, with which the `j`-th operation of the loop fails on result `r`:
operations alternate write (`Error()`), read (`ToString()`), starting with a write. -/
def opError {σ ρ Cert Pool E : Type} (W : World σ ρ Cert Pool E) (j : Nat) (r : ρ) :
    Option E :=
  if j % 2 = 0 then W.Error r else (W.ToString r).2

/-- The context that `run` puts before the error of the `j`-th operation of the loop. -/
def opContext (j : Nat) : GoString :=
  if j % 2 = 0 then str "Failed to set key/value: " else str "Failed to get string: "

/-- The phases of the Active state of section 4.4 of the specification. -/
inductive Phase where
  | write
  | read
  | report (value : GoString)
  | pause
  | failed
  deriving DecidableEq, Repr

/-- Specification of the Active state, as an acceptor of event sequences: a write of the
fixed key and value; on success a read of the same key; on success the report of the observed
value, then the fixed pause, then again a write.  After a failed operation nothing follows but
the closing of the client. -/
def activePattern {σ ρ Cert Pool E : Type} (W : World σ ρ Cert Pool E) :
    Phase → List (Event ρ) → Bool
  | .write, [] => true
  | .write, .Do cmd r :: tr =>
    cmd = [str "SET", str "key", str "OK"] &&
      activePattern W (if (W.Error r).isNone then .read else .failed) tr
  | .read, .Do cmd r :: tr =>
    cmd = [str "GET", str "key"] &&
      activePattern W
        (if (W.ToString r).2.isNone then .report (W.ToString r).1 else .failed) tr
  | .report v, .Println args :: tr => args = [str "Value: ", v] && activePattern W .pause tr
  | .pause, .Sleep ns :: tr => ns = 1000000000 && activePattern W .write tr
  | .failed, [] => true
  | .failed, [.Close] => true
  | _, _ => false

/-- Inverse view used by the specification: the one-line form of a text, in which every
line break is written as the two bytes backslash, `n`. -/
def escapeNewlines : GoString → GoString
  | [] => []
  | c :: cs => if c = 0x0a then 0x5c :: 0x6e :: escapeNewlines cs else c :: escapeNewlines cs

/-- The normalisation step of `parseX509Certificate` (line 153). -/
def normalise (s : GoString) : GoString := ReplaceAll s [0x5c, 0x6e] [0x0a]

/-- The credential and error that `retrieveTokenFunc` derives from one response of the token
source. -/
def bridgeResult {E : Type} : Except E Token → AuthCredentials × Option (GoError E)
  | .error err => ({}, some (.errorf (str "Failed to get token: ") (.lib err)))
  | .ok token => ({ Username := str "default", Password := token.AccessToken }, none)

/-! ## Sample inputs -/

/-- A one-line PEM text with escaped line breaks whose payload `AAAA` is base64 for three
zero bytes. -/
def pemZeros : GoString :=
  str "-----BEGIN CERTIFICATE-----\\nAAAA\\n-----END CERTIFICATE-----"

/-- A self-signed X.509 v3 certificate in PEM, as a one-line text with escaped line breaks:
Ed25519 key, serial number 1, subject and issuer `CN=sample`, valid from 2026-11-04 to
2036-11-01, extensions basic constraints (CA) and subject key identifier. -/
def pemSample : GoString :=
  str "-----BEGIN CERTIFICATE-----" ++
    str "\\nMIIBAjCBtaADAgECAgEBMAUGAytlcDARMQ8wDQYDVQQDDAZzYW1wbGUwHhcNMjYx" ++
    str "\\nMTA0MTIzNDM1WhcNMzYxMTAxMTIzNDM1WjARMQ8wDQYDVQQDDAZzYW1wbGUwKjAF" ++
    str "\\nBgMrZXADIQCnGH29RrXHAsi4tlInveuxH97Zc3VAnZgAN+OQocNXuKMyMDAwDwYD" ++
    str "\\nVR0TAQH/BAUwAwEB/zAdBgNVHQ4EFgQU79es/623jNx5aO6mtWf6kAxuCYQwBQYD" ++
    str "\\nK2VwA0EAx2wiBpC1zfyW6q/LPaCSbV0kBilqtT+FNDFfVSV/sPnU4ubRKf0OydMZ" ++
    str "\\n92qhyyVKHymQQ/NDeCtggXJwyFo/Bg==" ++
    str "\\n-----END CERTIFICATE-----"

/-- The multi-line form of `pemSample`, with real line breaks. -/
def pemSampleLines : GoString :=
  str "-----BEGIN CERTIFICATE-----" ++
    str "\nMIIBAjCBtaADAgECAgEBMAUGAytlcDARMQ8wDQYDVQQDDAZzYW1wbGUwHhcNMjYx" ++
    str "\nMTA0MTIzNDM1WhcNMzYxMTAxMTIzNDM1WjARMQ8wDQYDVQQDDAZzYW1wbGUwKjAF" ++
    str "\nBgMrZXADIQCnGH29RrXHAsi4tlInveuxH97Zc3VAnZgAN+OQocNXuKMyMDAwDwYD" ++
    str "\nVR0TAQH/BAUwAwEB/zAdBgNVHQ4EFgQU79es/623jNx5aO6mtWf6kAxuCYQwBQYD" ++
    str "\nK2VwA0EAx2wiBpC1zfyW6q/LPaCSbV0kBilqtT+FNDFfVSV/sPnU4ubRKf0OydMZ" ++
    str "\n92qhyyVKHymQQ/NDeCtggXJwyFo/Bg==" ++
    str "\n-----END CERTIFICATE-----"

/-- The 262 bytes of the certificate of `pemSample`: the base64 payload decoded (DER). -/
def derSample : List UInt8 :=
  [ 0x30, 0x82, 0x01, 0x02, 0x30, 0x81, 0xb5, 0xa0, 0x03, 0x02, 0x01, 0x02,
    0x02, 0x01, 0x01, 0x30, 0x05, 0x06, 0x03, 0x2b, 0x65, 0x70, 0x30, 0x11,
    0x31, 0x0f, 0x30, 0x0d, 0x06, 0x03, 0x55, 0x04, 0x03, 0x0c, 0x06, 0x73,
    0x61, 0x6d, 0x70, 0x6c, 0x65, 0x30, 0x1e, 0x17, 0x0d, 0x32, 0x36, 0x31,
    0x31, 0x30, 0x34, 0x31, 0x32, 0x33, 0x34, 0x33, 0x35, 0x5a, 0x17, 0x0d,
    0x33, 0x36, 0x31, 0x31, 0x30, 0x31, 0x31, 0x32, 0x33, 0x34, 0x33, 0x35,
    0x5a, 0x30, 0x11, 0x31, 0x0f, 0x30, 0x0d, 0x06, 0x03, 0x55, 0x04, 0x03,
    0x0c, 0x06, 0x73, 0x61, 0x6d, 0x70, 0x6c, 0x65, 0x30, 0x2a, 0x30, 0x05,
    0x06, 0x03, 0x2b, 0x65, 0x70, 0x03, 0x21, 0x00, 0xa7, 0x18, 0x7d, 0xbd,
    0x46, 0xb5, 0xc7, 0x02, 0xc8, 0xb8, 0xb6, 0x52, 0x27, 0xbd, 0xeb, 0xb1,
    0x1f, 0xde, 0xd9, 0x73, 0x75, 0x40, 0x9d, 0x98, 0x00, 0x37, 0xe3, 0x90,
    0xa1, 0xc3, 0x57, 0xb8, 0xa3, 0x32, 0x30, 0x30, 0x30, 0x0f, 0x06, 0x03,
    0x55, 0x1d, 0x13, 0x01, 0x01, 0xff, 0x04, 0x05, 0x30, 0x03, 0x01, 0x01,
    0xff, 0x30, 0x1d, 0x06, 0x03, 0x55, 0x1d, 0x0e, 0x04, 0x16, 0x04, 0x14,
    0xef, 0xd7, 0xac, 0xff, 0xad, 0xb7, 0x8c, 0xdc, 0x79, 0x68, 0xee, 0xa6,
    0xb5, 0x67, 0xfa, 0x90, 0x0c, 0x6e, 0x09, 0x84, 0x30, 0x05, 0x06, 0x03,
    0x2b, 0x65, 0x70, 0x03, 0x41, 0x00, 0xc7, 0x6c, 0x22, 0x06, 0x90, 0xb5,
    0xcd, 0xfc, 0x96, 0xea, 0xaf, 0xcb, 0x3d, 0xa0, 0x92, 0x6d, 0x5d, 0x24,
    0x06, 0x29, 0x6a, 0xb5, 0x3f, 0x85, 0x34, 0x31, 0x5f, 0x55, 0x25, 0x7f,
    0xb0, 0xf9, 0xd4, 0xe2, 0xe6, 0xd1, 0x29, 0xfd, 0x0e, 0xc9, 0xd3, 0x19,
    0xf7, 0x6a, 0xa1, 0xcb, 0x25, 0x4a, 0x1f, 0x29, 0x90, 0x43, 0xf3, 0x43,
    0x78, 0x2b, 0x60, 0x81, 0x72, 0x70, 0xc8, 0x5a, 0x3f, 0x06 ]

/-- The fields of an `x509.Certificate` that the specification names, with the encoded
bytes; names are written as `pkix.Name.String()` prints them. -/
structure SampleCert where
  Raw : List UInt8
  Subject : GoString
  Issuer : GoString
  deriving DecidableEq, Repr

/-- The certificate encoded by `derSample`. -/
def certSample : SampleCert :=
  { Raw := derSample, Subject := str "CN=sample", Issuer := str "CN=sample" }

/-- A one-line PEM text of another block type. -/
def pemKey : GoString :=
  str "-----BEGIN PUBLIC KEY-----\\nAAAA\\n-----END PUBLIC KEY-----"

/-- A small table of answers of the two library functions.  `Decode` knows the multi-line
forms of the three sample texts and finds no block elsewhere.  `ParseCertificate` parses
`derSample` to `certSample` and rejects the bytes `00 00 00`, as the Go library does, with
"x509: malformed certificate"; other bytes get the same answer as `00 00 00`. -/
def sampleLib : CertLib SampleCert GoString where
  Decode := fun data =>
    if data = str "-----BEGIN CERTIFICATE-----\nAAAA\n-----END CERTIFICATE-----" then
      (some { Type_ := str "CERTIFICATE", Headers := [], Bytes := [0, 0, 0] }, [])
    else if data = pemSampleLines then
      (some { Type_ := str "CERTIFICATE", Headers := [], Bytes := derSample }, [])
    else if data = str "-----BEGIN PUBLIC KEY-----\nAAAA\n-----END PUBLIC KEY-----" then
      (some { Type_ := str "PUBLIC KEY", Headers := [], Bytes := [0, 0, 0] }, [])
    else (none, data)
  ParseCertificate := fun der =>
    if der = derSample then (some certSample, none)
    else (none, some (str "x509: malformed certificate"))

/-- A mocked token source with two tokens of known expiries, 10 and 20. -/
def twoTokens : TokenSource Nat GoString :=
  mockTokenSource
    [{ AccessToken := str "first", Expiry := 10 }, { AccessToken := str "second", Expiry := 20 }]
    (str "no more tokens")

/-- A handshake context. -/
def sampleContext : AuthCredentialsContext := { Address := str "localhost:8001" }

/-- A sample result type for operations: a value or a failure with a message. -/
inductive SampleResult where
  | value (v : GoString)
  | failure (e : GoString)
  deriving DecidableEq, Repr

/-- The method `Error()` on sample results. -/
def SampleResult.Error : SampleResult → Option GoString
  | .value _ => none
  | .failure e => some e

/-- The method `ToString()` on sample results. -/
def SampleResult.ToString : SampleResult → GoString × Option GoString
  | .value v => (v, none)
  | .failure e => ([], some e)

/-- A script in which the first three operations succeed and every later one fails. -/
def sampleScript (i : Nat) : SampleResult :=
  if i < 3 then .value (str "OK") else .failure (str "connection reset")

/-- The scripted world of `sampleScript`. -/
def sampleWorld : World Nat SampleResult GoString Unit GoString :=
  scripted sampleScript SampleResult.Error SampleResult.ToString twoTokens

/-- The configuration of the default flags: no root certificates. -/
def sampleConfig : config GoString := { addr := str "localhost:8001", rootCAs := [] }

/-! ## Facts about the newline normalisation -/

theorem normalise_nil : normalise [] = [] := by
  simp [normalise, ReplaceAll, replaceScan]

theorem normalise_match (t : GoString) :
    normalise (0x5c :: 0x6e :: t) = 0x0a :: normalise t := by
  simp [normalise, ReplaceAll, replaceScan]

theorem normalise_skip (c : UInt8) (t : GoString)
    (h : c ≠ 0x5c ∨ t.head? ≠ some 0x6e) :
    normalise (c :: t) = c :: normalise t := by
  cases t with
  | nil => simp [normalise, ReplaceAll, replaceScan]
  | cons d t =>
    have h' : ¬ (c = 0x5c ∧ d = 0x6e) := by
      rintro ⟨hc, hd⟩
      rcases h with h | h
      · exact h hc
      · exact h (by simp [hd])
    simp only [normalise, ReplaceAll, replaceScan]
    simp
    intro hc hd
    exact absurd ⟨hc.symm, hd.symm⟩ h'

theorem normalise_single (c : UInt8) : normalise [c] = [c] := by
  rw [normalise_skip c [] (Or.inr (by simp)), normalise_nil]

theorem normalise_head (d : UInt8) (t : GoString) :
    (normalise (d :: t)).head? = some d ∨ (normalise (d :: t)).head? = some 0x0a := by
  cases t with
  | nil => left; simp [normalise_single]
  | cons e t =>
    by_cases h : d = 0x5c ∧ e = 0x6e
    · right
      obtain ⟨hd, he⟩ := h
      subst hd he
      simp [normalise_match]
    · left
      have h' : d ≠ 0x5c ∨ (e :: t).head? ≠ some 0x6e := by
        by_cases hd : d = 0x5c
        · right
          simp only [List.head?_cons, ne_eq, Option.some.injEq]
          exact fun he => h ⟨hd, he⟩
        · exact Or.inl hd
      simp [normalise_skip d (e :: t) h']

/-- After normalisation no backslash-`n` pair is left: normalising twice changes nothing. -/
theorem normalise_idem : ∀ s : GoString, normalise (normalise s) = normalise s
  | [] => by simp [normalise_nil]
  | [c] => by simp [normalise_single]
  | c :: d :: t => by
    by_cases h : c = 0x5c ∧ d = 0x6e
    · obtain ⟨hc, hd⟩ := h
      subst hc hd
      rw [normalise_match, normalise_skip 0x0a _ (Or.inl (by decide)), normalise_idem t]
    · have h1 : c ≠ 0x5c ∨ (d :: t).head? ≠ some 0x6e := by
        by_cases hc : c = 0x5c
        · right
          simp only [List.head?_cons, ne_eq, Option.some.injEq]
          exact fun hd => h ⟨hc, hd⟩
        · exact Or.inl hc
      have h2 : c ≠ 0x5c ∨ (normalise (d :: t)).head? ≠ some 0x6e := by
        by_cases hc : c = 0x5c
        · right
          have hd : d ≠ 0x6e := fun hd => h ⟨hc, hd⟩
          rcases normalise_head d t with hh | hh
          · rw [hh]; simpa using hd
          · rw [hh]; decide
        · exact Or.inl hc
      rw [normalise_skip c (d :: t) h1, normalise_skip c _ h2, normalise_idem (d :: t)]

theorem escapeNewlines_head (d : UInt8) (t : GoString) (hd : d ≠ 0x6e) :
    (escapeNewlines (d :: t)).head? ≠ some 0x6e := by
  by_cases h : d = 0x0a
  · subst h
    simp [escapeNewlines]
  · simp [escapeNewlines, h, hd]

/-- Normalising the one-line form of a text gives the same bytes as normalising the text. -/
theorem normalise_escapeNewlines : ∀ m : GoString, normalise (escapeNewlines m) = normalise m
  | [] => by simp [escapeNewlines]
  | [c] => by
    by_cases h : c = 0x0a
    · subst h
      simp [escapeNewlines, normalise_match, normalise_single, normalise_nil]
    · simp [escapeNewlines, h, normalise_single]
  | c :: d :: t => by
    by_cases hnl : c = 0x0a
    · subst hnl
      have e1 : escapeNewlines (0x0a :: d :: t) = 0x5c :: 0x6e :: escapeNewlines (d :: t) := by
        simp [escapeNewlines]
      rw [e1, normalise_match, normalise_escapeNewlines (d :: t),
        normalise_skip 0x0a (d :: t) (Or.inl (by decide))]
    · have e1 : escapeNewlines (c :: d :: t) = c :: escapeNewlines (d :: t) := by
        simp [escapeNewlines, hnl]
      by_cases h : c = 0x5c ∧ d = 0x6e
      · obtain ⟨hc, hd⟩ := h
        subst hc hd
        have e2 : escapeNewlines (0x5c :: 0x6e :: t) = 0x5c :: 0x6e :: escapeNewlines t := by
          simp [escapeNewlines]
        rw [e2, normalise_match, normalise_match, normalise_escapeNewlines t]
      · have h1 : c ≠ 0x5c ∨ (d :: t).head? ≠ some 0x6e := by
          by_cases hc : c = 0x5c
          · right
            simp only [List.head?_cons, ne_eq, Option.some.injEq]
            exact fun hd => h ⟨hc, hd⟩
          · exact Or.inl hc
        have h2 : c ≠ 0x5c ∨ (escapeNewlines (d :: t)).head? ≠ some 0x6e := by
          by_cases hc : c = 0x5c
          · exact Or.inr (escapeNewlines_head d t (fun hd => h ⟨hc, hd⟩))
          · exact Or.inl hc
        rw [e1, normalise_skip c _ h2, normalise_skip c _ h1, normalise_escapeNewlines (d :: t)]

/-! ## Trust anchor loader: theorems -/

theorem parseX509Certificate_eq {Cert E : Type} (L : CertLib Cert E) (s : GoString) :
    parseX509Certificate L s =
      match (L.Decode (normalise s)).1 with
      | none => (none, some errNoPemBlock)
      | some block =>
        if block.Type_ ≠ str "CERTIFICATE" then (none, some errNoPemBlock)
        else ((L.ParseCertificate block.Bytes).1, (L.ParseCertificate block.Bytes).2.map .lib) :=
  rfl

/-- C1: `parseX509Certificate` returns no certificate together with the error "failed to
find a suitable pem block type" exactly when decoding the normalised input yields no block or
a first block whose type is not CERTIFICATE; and whenever that error is returned at all the
input was of this kind, so it is never the error of a failed certificate parse. -/
theorem C1_no_suitable_block {Cert E : Type} (L : CertLib Cert E) (s : GoString) :
    (parseX509Certificate L s = (none, some errNoPemBlock) ↔
      ((L.Decode (normalise s)).1 = none ∨
        ∃ b, (L.Decode (normalise s)).1 = some b ∧ b.Type_ ≠ str "CERTIFICATE")) ∧
    ((parseX509Certificate L s).2 = some errNoPemBlock →
      ((L.Decode (normalise s)).1 = none ∨
        ∃ b, (L.Decode (normalise s)).1 = some b ∧ b.Type_ ≠ str "CERTIFICATE")) := by
  rw [parseX509Certificate_eq]
  cases hd : (L.Decode (normalise s)).1 with
  | none => simp
  | some b =>
    by_cases ht : b.Type_ = str "CERTIFICATE"
    · cases hp : (L.ParseCertificate b.Bytes).2 <;> simp [ht, hp, errNoPemBlock]
    · simp [ht]

/-- C2: `parseX509Certificate` gives the same result on `s` and on `s` with every
backslash-`n` pair replaced by a line break; and the one-line form of a text, with its line
breaks escaped, gives the same result as the text itself. -/
theorem C2_escaped_newlines {Cert E : Type} (L : CertLib Cert E) :
    (∀ s : GoString,
      parseX509Certificate L s = parseX509Certificate L (ReplaceAll s [0x5c, 0x6e] [0x0a])) ∧
    (∀ m : GoString, parseX509Certificate L (escapeNewlines m) = parseX509Certificate L m) := by
  constructor
  · intro s
    rw [parseX509Certificate_eq, parseX509Certificate_eq]
    show _ = (match (L.Decode (normalise (normalise s))).1 with
      | none => _
      | some block => _)
    rw [normalise_idem]
  · intro m
    rw [parseX509Certificate_eq, parseX509Certificate_eq, normalise_escapeNewlines]

/-- C3: when the first PEM block of the normalised input has type CERTIFICATE and its bytes
parse as the certificate `c`, `parseX509Certificate` returns `c`, and no error. -/
theorem C3_well_formed_input {Cert E : Type} (L : CertLib Cert E) (s : GoString)
    (b : Block) (c : Cert)
    (hblock : (L.Decode (ReplaceAll s [0x5c, 0x6e] [0x0a])).1 = some b)
    (htype : b.Type_ = str "CERTIFICATE")
    (hcert : L.ParseCertificate b.Bytes = (some c, none)) :
    parseX509Certificate L s = (some c, none) := by
  rw [parseX509Certificate_eq]
  show (match (L.Decode (ReplaceAll s [0x5c, 0x6e] [0x0a])).1 with
      | none => _
      | some block => _) = _
  rw [hblock]
  simp [htype, hcert]

set_option maxRecDepth 100000 in
theorem C3_well_formed_input_witness :
    parseX509Certificate sampleLib pemSample = (some certSample, none) ∧
      certSample.Subject = str "CN=sample" ∧ certSample.Issuer = str "CN=sample" :=
  ⟨C3_well_formed_input sampleLib pemSample
    { Type_ := str "CERTIFICATE", Headers := [], Bytes := derSample } certSample
    (by decide) (by decide) (by decide), rfl, rfl⟩

/-! ## Auth bridge: theorems -/

theorem retrieveTokenFunc_eq {σ E : Type} (ts : TokenSource σ E) (ctx : AuthCredentialsContext)
    (w : σ) : retrieveTokenFunc ts ctx w = (bridgeResult (ts.Token w).1, (ts.Token w).2) := by
  unfold retrieveTokenFunc
  rcases h : ts.Token w with ⟨r, w'⟩
  cases r <;> rfl

/-- C4: when the token source answers with token `t`, `retrieveTokenFunc` returns no error
and the credential with user name "default" and password `t.AccessToken`, whatever the
handshake context. -/
theorem C4_token_to_credential {σ E : Type} (ts : TokenSource σ E)
    (ctx : AuthCredentialsContext) (w w' : σ) (t : Token)
    (h : ts.Token w = (.ok t, w')) :
    retrieveTokenFunc ts ctx w =
      (({ Username := str "default", Password := t.AccessToken }, none), w') := by
  rw [retrieveTokenFunc_eq, h]
  rfl

theorem C4_token_to_credential_witness :
    retrieveTokenFunc twoTokens sampleContext 0 =
      (({ Username := str "default", Password := str "first" }, none), 1) :=
  C4_token_to_credential twoTokens sampleContext 0 1
    { AccessToken := str "first", Expiry := 10 } rfl

/-- C5: when the token source fails with error `e`, `retrieveTokenFunc` returns the empty
credential and the error "Failed to get token: " wrapping `e`, from which `e` is unwrapped
unchanged; and it returns an error if and only if the token source failed. -/
theorem C5_provider_failure {σ E : Type} (ts : TokenSource σ E)
    (ctx : AuthCredentialsContext) (w : σ) :
    (∀ (e : E) (w' : σ), ts.Token w = (.error e, w') →
      retrieveTokenFunc ts ctx w =
        (({ Username := [], Password := [] },
          some (.errorf (str "Failed to get token: ") (.lib e))), w') ∧
      (retrieveTokenFunc ts ctx w).1.2.bind GoError.Unwrap = some (.lib e)) ∧
    ((retrieveTokenFunc ts ctx w).1.2 ≠ none ↔ ∃ e, (ts.Token w).1 = .error e) := by
  rw [retrieveTokenFunc_eq]
  refine ⟨?_, ?_⟩
  · intro e w' h
    rw [h]
    exact ⟨rfl, rfl⟩
  · cases h : (ts.Token w).1 <;> simp [bridgeResult]

theorem C5_provider_failure_witness :
    retrieveTokenFunc twoTokens sampleContext 2 =
        (({ Username := [], Password := [] },
          some (.errorf (str "Failed to get token: ") (.lib (str "no more tokens")))), 3) ∧
      (retrieveTokenFunc twoTokens sampleContext 2).1.2.bind GoError.Unwrap =
        some (.lib (str "no more tokens")) :=
  (C5_provider_failure twoTokens sampleContext 2).1 (str "no more tokens") 3 rfl

/-- C6 as stated fails: asked at instant 15, the mocked source hands out its first token,
which expired at 10, and `retrieveTokenFunc` returns that token as the password. -/
theorem C6_counterexample :
    retrieveTokenFunc twoTokens sampleContext 0 =
        (({ Username := str "default", Password := str "first" }, none), 1) ∧
      ¬ freshAt twoTokens 0 15 { Username := str "default", Password := str "first" } := by
  refine ⟨by decide, ?_⟩
  rintro ⟨t, ht, -, hexp⟩
  have h0 : (twoTokens.Token 0).1 = .ok { AccessToken := str "first", Expiry := 10 } := rfl
  rw [h0] at ht
  cases ht
  exact absurd hexp (by decide)

/-- C6 amended: `retrieveTokenFunc` hands on the token that the token source returns at that
invocation and checks no expiry itself; so when the source returns only tokens that expire
after the instant of the invocation, the password of a returned credential is the access
value of such a token. -/
theorem C6_fresh_if_provider_fresh {σ E : Type} (ts : TokenSource σ E)
    (ctx : AuthCredentialsContext) (w w' : σ) (now : Nat) (creds : AuthCredentials)
    (hsource : ∀ t, (ts.Token w).1 = .ok t → now < t.Expiry)
    (hret : retrieveTokenFunc ts ctx w = ((creds, none), w')) :
    freshAt ts w now creds := by
  rw [retrieveTokenFunc_eq] at hret
  cases h : (ts.Token w).1 with
  | error e => simp [h, bridgeResult] at hret
  | ok t =>
    simp only [h, bridgeResult, Prod.mk.injEq, and_true] at hret
    exact ⟨t, h, by rw [← hret.1], hsource t h⟩

theorem C6_fresh_if_provider_fresh_witness :
    freshAt twoTokens 0 5 { Username := str "default", Password := str "first" } :=
  C6_fresh_if_provider_fresh twoTokens sampleContext 0 1 5
    { Username := str "default", Password := str "first" }
    (by
      intro t ht
      have h0 : (twoTokens.Token 0).1 = .ok { AccessToken := str "first", Expiry := 10 } :=
        rfl
      rw [h0] at ht
      cases ht
      decide)
    (by decide)

theorem invocations_eq {σ E : Type} (ts : TokenSource σ E) :
    ∀ (ctxs : List AuthCredentialsContext) (w : σ),
      invocations ts ctxs w =
        ((responses ts ctxs.length w).1.map bridgeResult, (responses ts ctxs.length w).2)
  | [], w => rfl
  | c :: cs, w => by
    simp only [invocations, responses, List.length_cons, retrieveTokenFunc_eq,
      invocations_eq ts cs, List.map_cons]

/-- C7: there is one function of the token source's response that gives the result of every
invocation of `retrieveTokenFunc`, which leaves the world as a single `Token()` request
leaves it; in a sequence of invocations the results are, in order, that function of the
source's successive responses; and each invocation makes the request counter go up by one. -/
theorem C7_one_request_per_invocation {E : Type} :
    ∃ f : Except E Token → AuthCredentials × Option (GoError E),
      (∀ (σ : Type) (ts : TokenSource σ E) (ctx : AuthCredentialsContext) (w : σ),
        retrieveTokenFunc ts ctx w = (f (ts.Token w).1, (ts.Token w).2)) ∧
      (∀ (σ : Type) (ts : TokenSource σ E) (ctxs : List AuthCredentialsContext) (w : σ),
        invocations ts ctxs w =
          ((responses ts ctxs.length w).1.map f, (responses ts ctxs.length w).2)) ∧
      (∀ (σ : Type) (ts : TokenSource σ E) (ctx : AuthCredentialsContext) (w : σ) (n : Nat),
        (retrieveTokenFunc ts.counting ctx (w, n)).2.2 = n + 1) :=
  ⟨bridgeResult, fun _ ts ctx w => retrieveTokenFunc_eq ts ctx w,
    fun _ ts ctxs w => invocations_eq ts ctxs w,
    fun _ ts ctx w n => by rw [retrieveTokenFunc_eq]; rfl⟩

/-! ## Client session: theorems -/

section Session

variable {σ ρ Cert Pool E : Type}

theorem sessionLoop_set_fail (W : World σ ρ Cert Pool E) (fuel : Nat) (w : σ) (err : E)
    (h : W.Error (W.Do cmdSet w).1 = some err) :
    sessionLoop W (fuel + 1) w =
      (.returned (some (.errorf (str "Failed to set key/value: ") (.lib err))),
        [.Do cmdSet (W.Do cmdSet w).1], (W.Do cmdSet w).2) := by
  simp only [sessionLoop, h]

theorem sessionLoop_get_fail (W : World σ ρ Cert Pool E) (fuel : Nat) (w : σ) (err : E)
    (h1 : W.Error (W.Do cmdSet w).1 = none)
    (h2 : (W.ToString (W.Do cmdGet (W.Do cmdSet w).2).1).2 = some err) :
    sessionLoop W (fuel + 1) w =
      (.returned (some (.errorf (str "Failed to get string: ") (.lib err))),
        [.Do cmdSet (W.Do cmdSet w).1, .Do cmdGet (W.Do cmdGet (W.Do cmdSet w).2).1],
        (W.Do cmdGet (W.Do cmdSet w).2).2) := by
  rcases h : W.ToString (W.Do cmdGet (W.Do cmdSet w).2).1 with ⟨res, e⟩
  rw [h] at h2
  simp only at h2
  subst h2
  simp only [sessionLoop, h1, h]

theorem sessionLoop_ok (W : World σ ρ Cert Pool E) (fuel : Nat) (w : σ)
    (h1 : W.Error (W.Do cmdSet w).1 = none)
    (h2 : (W.ToString (W.Do cmdGet (W.Do cmdSet w).2).1).2 = none) :
    sessionLoop W (fuel + 1) w =
      ((sessionLoop W fuel (W.Sleep second (W.Println
            [str "Value: ", (W.ToString (W.Do cmdGet (W.Do cmdSet w).2).1).1]
            (W.Do cmdGet (W.Do cmdSet w).2).2))).1,
        .Do cmdSet (W.Do cmdSet w).1 :: .Do cmdGet (W.Do cmdGet (W.Do cmdSet w).2).1 ::
          .Println [str "Value: ", (W.ToString (W.Do cmdGet (W.Do cmdSet w).2).1).1] ::
          .Sleep second ::
          (sessionLoop W fuel (W.Sleep second (W.Println
            [str "Value: ", (W.ToString (W.Do cmdGet (W.Do cmdSet w).2).1).1]
            (W.Do cmdGet (W.Do cmdSet w).2).2))).2.1,
        (sessionLoop W fuel (W.Sleep second (W.Println
            [str "Value: ", (W.ToString (W.Do cmdGet (W.Do cmdSet w).2).1).1]
            (W.Do cmdGet (W.Do cmdSet w).2).2))).2.2) := by
  rcases h : W.ToString (W.Do cmdGet (W.Do cmdSet w).2).1 with ⟨res, e⟩
  rw [h] at h2
  simp only at h2
  subst h2
  simp only [sessionLoop, h1, h]

/-- The loop returns only wrapped errors of a write or of a read. -/
theorem sessionLoop_ret (W : World σ ρ Cert Pool E) :
    ∀ (fuel : Nat) (w : σ),
      (sessionLoop W fuel w).1 = .running ∨
      ∃ err : E,
        (sessionLoop W fuel w).1 =
            .returned (some (.errorf (str "Failed to set key/value: ") (.lib err))) ∨
        (sessionLoop W fuel w).1 =
            .returned (some (.errorf (str "Failed to get string: ") (.lib err)))
  | 0, w => Or.inl rfl
  | fuel + 1, w => by
    cases h1 : W.Error (W.Do cmdSet w).1 with
    | some err =>
      rw [sessionLoop_set_fail W fuel w err h1]
      exact Or.inr ⟨err, Or.inl rfl⟩
    | none =>
      cases h2 : (W.ToString (W.Do cmdGet (W.Do cmdSet w).2).1).2 with
      | some err =>
        rw [sessionLoop_get_fail W fuel w err h1 h2]
        exact Or.inr ⟨err, Or.inr rfl⟩
      | none =>
        rw [sessionLoop_ok W fuel w h1 h2]
        exact sessionLoop_ret W fuel _

theorem activePattern_write (W : World σ ρ Cert Pool E) (r : ρ) (tr : List (Event ρ)) :
    activePattern W .write (.Do cmdSet r :: tr) =
      activePattern W (if (W.Error r).isNone then .read else .failed) tr := by
  simp [activePattern, cmdSet]

theorem activePattern_read (W : World σ ρ Cert Pool E) (r : ρ) (tr : List (Event ρ)) :
    activePattern W .read (.Do cmdGet r :: tr) =
      activePattern W
        (if (W.ToString r).2.isNone then .report (W.ToString r).1 else .failed) tr := by
  simp [activePattern, cmdGet]

theorem activePattern_report (W : World σ ρ Cert Pool E) (v : GoString)
    (tr : List (Event ρ)) :
    activePattern W (.report v) (.Println [str "Value: ", v] :: .Sleep second :: tr) =
      activePattern W .write tr := by
  simp [activePattern, second]

/-- The events of the loop follow the Active pattern, and once the loop has returned the
closing of the client may follow them. -/
theorem sessionLoop_pattern (W : World σ ρ Cert Pool E) :
    ∀ (fuel : Nat) (w : σ),
      activePattern W .write (sessionLoop W fuel w).2.1 = true ∧
      ((sessionLoop W fuel w).1 ≠ .running →
        activePattern W .write ((sessionLoop W fuel w).2.1 ++ [.Close]) = true)
  | 0, w => ⟨rfl, fun h => absurd rfl h⟩
  | fuel + 1, w => by
    cases h1 : W.Error (W.Do cmdSet w).1 with
    | some err =>
      rw [sessionLoop_set_fail W fuel w err h1]
      simp only [List.cons_append, List.nil_append, activePattern_write, h1]
      simp [activePattern]
    | none =>
      cases h2 : (W.ToString (W.Do cmdGet (W.Do cmdSet w).2).1).2 with
      | some err =>
        rw [sessionLoop_get_fail W fuel w err h1 h2]
        simp only [List.cons_append, List.nil_append, activePattern_write,
          activePattern_read, h1, h2, Option.isNone_none, Option.isNone_some, if_true,
          if_false, Bool.false_eq_true]
        simp [activePattern]
      | none =>
        rw [sessionLoop_ok W fuel w h1 h2]
        have ih := sessionLoop_pattern W fuel (W.Sleep second (W.Println
            [str "Value: ", (W.ToString (W.Do cmdGet (W.Do cmdSet w).2).1).1]
            (W.Do cmdGet (W.Do cmdSet w).2).2))
        simp only [activePattern_write, activePattern_read, activePattern_report, h1, h2,
          List.cons_append, Option.isNone_none, if_true]
        exact ih

/-- In a scripted world whose first failing operation, counted from state `n`, is the `k`-th,
the loop returns the wrapped error of that operation as soon as the fuel covers its
iteration; the failing operation is the last event and `k + 1` operations were issued. -/
theorem sessionLoop_scripted (script : Nat → ρ) (Error : ρ → Option E)
    (ToString : ρ → GoString × Option E) (ts : TokenSource Nat E)
    (W : World Nat ρ Cert Unit E) (hW : W = scripted script Error ToString ts) :
    ∀ (k n fuel : Nat) (e : E),
      (∀ j, j < k → opError W j (script (n + j)) = none) →
      opError W k (script (n + k)) = some e →
      k / 2 < fuel →
      ∃ pre, sessionLoop W fuel n =
        (.returned (some (.errorf (opContext k) (.lib e))),
          pre ++ [.Do (if k % 2 = 0 then cmdSet else cmdGet) (script (n + k))], n + k + 1)
  | 0, n, fuel, e => by
    intro _ hk hf
    obtain ⟨f, rfl⟩ : ∃ f, fuel = f + 1 := ⟨fuel - 1, by omega⟩
    subst hW
    have h1 : (scripted script Error ToString ts : World Nat ρ Cert Unit E).Error
        ((scripted script Error ToString ts : World Nat ρ Cert Unit E).Do cmdSet n).1 =
        some e := by
      simpa [opError, scripted] using hk
    refine ⟨[], ?_⟩
    rw [sessionLoop_set_fail _ f n e h1]
    simp [opContext, scripted]
  | 1, n, fuel, e => by
    intro hlt hk hf
    obtain ⟨f, rfl⟩ : ∃ f, fuel = f + 1 := ⟨fuel - 1, by omega⟩
    subst hW
    have h1 : (scripted script Error ToString ts : World Nat ρ Cert Unit E).Error
        ((scripted script Error ToString ts : World Nat ρ Cert Unit E).Do cmdSet n).1 =
        none := by
      simpa [opError, scripted] using hlt 0 (by omega)
    have h2 : ((scripted script Error ToString ts : World Nat ρ Cert Unit E).ToString
        ((scripted script Error ToString ts : World Nat ρ Cert Unit E).Do cmdGet
          ((scripted script Error ToString ts : World Nat ρ Cert Unit E).Do cmdSet n).2).1).2 =
        some e := by
      simpa [opError, scripted] using hk
    refine ⟨[.Do cmdSet (script n)], ?_⟩
    rw [sessionLoop_get_fail _ f n e h1 h2]
    simp [opContext, scripted]
  | k + 2, n, fuel, e => by
    intro hlt hk hf
    obtain ⟨f, rfl⟩ : ∃ f, fuel = f + 1 := ⟨fuel - 1, by omega⟩
    have h1 : W.Error (W.Do cmdSet n).1 = none := by
      have := hlt 0 (by omega)
      subst hW
      simpa [opError, scripted] using this
    have h2 : (W.ToString (W.Do cmdGet (W.Do cmdSet n).2).1).2 = none := by
      have := hlt 1 (by omega)
      subst hW
      simpa [opError, scripted] using this
    have hstate : W.Sleep second (W.Println
        [str "Value: ", (W.ToString (W.Do cmdGet (W.Do cmdSet n).2).1).1]
        (W.Do cmdGet (W.Do cmdSet n).2).2) = n + 2 := by
      subst hW
      simp [scripted]
    have hr1 : (W.Do cmdSet n).1 = script n := by
      subst hW
      rfl
    have hr2 : (W.Do cmdGet (W.Do cmdSet n).2).1 = script (n + 1) := by
      subst hW
      rfl
    have hmod : (k + 2) % 2 = k % 2 := by omega
    have ih := sessionLoop_scripted script Error ToString ts W hW k (n + 2) f e
      (fun j hj => by
        have := hlt (j + 2) (by omega)
        have hm : (j + 2) % 2 = j % 2 := by omega
        simp only [opError, hm] at this
        simpa [opError, Nat.add_assoc, Nat.add_comm 2 j] using this)
      (by
        simp only [opError, hmod] at hk
        simpa [opError, Nat.add_assoc, Nat.add_comm 2 k] using hk)
      (by omega)
    obtain ⟨pre, hpre⟩ := ih
    refine ⟨.Do cmdSet (script n) :: .Do cmdGet (script (n + 1)) ::
      .Println [str "Value: ", (W.ToString (script (n + 1))).1] :: .Sleep second :: pre, ?_⟩
    rw [sessionLoop_ok W f n h1 h2, hstate, hpre, hr1, hr2]
    simp only [opContext, hmod, List.cons_append, Prod.mk.injEq, true_and]
    refine ⟨?_, by omega⟩
    simp [Nat.add_assoc, Nat.add_comm 2 k]

theorem run_scripted (script : Nat → ρ) (Error : ρ → Option E)
    (ToString : ρ → GoString × Option E) (ts : TokenSource Nat E) (cfg : config Cert)
    (fuel : Nat) (ret : Option (GoError E)) (tr : List (Event ρ)) (n : Nat)
    (h : sessionLoop (scripted script Error ToString ts : World Nat ρ Cert Unit E) fuel 0 =
      (.returned ret, tr, n)) :
    run (scripted script Error ToString ts : World Nat ρ Cert Unit E) cfg fuel 0 =
      (.returned ret, tr ++ [.Close], n) := by
  have h' : sessionLoop (scripted script Error ToString ts : World Nat ρ Cert Unit E) fuel
      ((scripted script Error ToString ts : World Nat ρ Cert Unit E).NewClient
        { InitAddress := [cfg.addr],
          RootCAs := cfg.rootCAs.foldl
            (scripted script Error ToString ts : World Nat ρ Cert Unit E).AddCert
            (scripted script Error ToString ts : World Nat ρ Cert Unit E).NewCertPool,
          AuthCredentialsFn := retrieveTokenFunc ts } 0).2 = (.returned ret, tr, n) := h
  simp only [run, scripted] at h' ⊢
  rw [h']

theorem run_never_success {σ Pool : Type} (W : World σ ρ Cert Pool E) (cfg : config Cert)
    (fuel : Nat) (w : σ) : (run W cfg fuel w).1 ≠ .returned none := by
  unfold run
  rcases W.DefaultTokenSource (str "https://www.googleapis.com/auth/cloud-platform") w
    with ⟨r, w1⟩
  cases r with
  | error err => simp
  | ok ts =>
    simp only
    rcases W.NewClient _ w1 with ⟨e, w2⟩
    cases e with
    | some err => simp
    | none =>
      simp only
      have hret := sessionLoop_ret W fuel w2
      rcases h3 : sessionLoop W fuel w2 with ⟨ret, tr, w3⟩
      rw [h3] at hret
      cases ret with
      | running => simp
      | returned err =>
        rcases hret with hret | ⟨e, hret | hret⟩ <;> simp at hret <;> simp [hret]

theorem run_pattern {σ Pool : Type} (W : World σ ρ Cert Pool E) (cfg : config Cert)
    (fuel : Nat) (w : σ) : activePattern W .write (run W cfg fuel w).2.1 = true := by
  unfold run
  rcases W.DefaultTokenSource (str "https://www.googleapis.com/auth/cloud-platform") w
    with ⟨r, w1⟩
  cases r with
  | error err => rfl
  | ok ts =>
    simp only
    rcases W.NewClient _ w1 with ⟨e, w2⟩
    cases e with
    | some err => rfl
    | none =>
      simp only
      have hpat := sessionLoop_pattern W fuel w2
      rcases h3 : sessionLoop W fuel w2 with ⟨ret, tr, w3⟩
      rw [h3] at hpat
      cases ret with
      | running => exact hpat.1
      | returned err => exact hpat.2 (by simp)

/-- When the loop returns an error, its last event is the failed operation and the error is
the error of that operation's result, wrapped with the context of its step. -/
theorem sessionLoop_failure (W : World σ ρ Cert Pool E) :
    ∀ (fuel : Nat) (w : σ) (e : GoError E) (tr : List (Event ρ)) (w' : σ),
      sessionLoop W fuel w = (.returned (some e), tr, w') →
      (∃ (pre : List (Event ρ)) (r : ρ) (err : E),
        tr = pre ++ [.Do cmdSet r] ∧ W.Error r = some err ∧
        e = .errorf (str "Failed to set key/value: ") (.lib err)) ∨
      (∃ (pre : List (Event ρ)) (r : ρ) (err : E),
        tr = pre ++ [.Do cmdGet r] ∧ (W.ToString r).2 = some err ∧
        e = .errorf (str "Failed to get string: ") (.lib err))
  | 0, w, e, tr, w' => by
    intro h
    simp [sessionLoop] at h
  | fuel + 1, w, e, tr, w' => by
    intro h
    cases h1 : W.Error (W.Do cmdSet w).1 with
    | some err =>
      rw [sessionLoop_set_fail W fuel w err h1] at h
      simp only [Prod.mk.injEq, Ret.returned.injEq, Option.some.injEq] at h
      exact Or.inl ⟨[], (W.Do cmdSet w).1, err, by simp [← h.2.1], h1, h.1.symm⟩
    | none =>
      cases h2 : (W.ToString (W.Do cmdGet (W.Do cmdSet w).2).1).2 with
      | some err =>
        rw [sessionLoop_get_fail W fuel w err h1 h2] at h
        simp only [Prod.mk.injEq, Ret.returned.injEq, Option.some.injEq] at h
        exact Or.inr ⟨[.Do cmdSet (W.Do cmdSet w).1], (W.Do cmdGet (W.Do cmdSet w).2).1, err,
          by simp [← h.2.1], h2, h.1.symm⟩
      | none =>
        rw [sessionLoop_ok W fuel w h1 h2] at h
        simp only [Prod.mk.injEq] at h
        obtain ⟨hret, htr, hw⟩ := h
        have ih := sessionLoop_failure W fuel _ e _ _ (Prod.ext hret (Prod.ext rfl rfl))
        rcases ih with ⟨pre, r, err, hpre, herr, he⟩ | ⟨pre, r, err, hpre, herr, he⟩
        · refine Or.inl ⟨tr.take 4 ++ pre, r, err, ?_, herr, he⟩
          subst htr
          rw [hpre]
          simp
        · refine Or.inr ⟨tr.take 4 ++ pre, r, err, ?_, herr, he⟩
          subst htr
          rw [hpre]
          simp

/-- Every error that `run` returns is the error of the step that failed, wrapped with the
context of that step: the token source set-up, the client creation, or the write or read that
is the last operation before the client is closed. -/
theorem run_failure {σ Pool : Type} (W : World σ ρ Cert Pool E) (cfg : config Cert)
    (fuel : Nat) (w : σ) (e : GoError E) (tr : List (Event ρ)) (w' : σ)
    (h : run W cfg fuel w = (.returned (some e), tr, w')) :
    (∃ (err : E) (w1 : σ),
      W.DefaultTokenSource (str "https://www.googleapis.com/auth/cloud-platform") w =
        (.error err, w1) ∧
      e = .errorf (str "Failed to get default token source: ") (.lib err)) ∨
    (∃ (ts : TokenSource σ E) (w1 : σ) (err : E) (w2 : σ),
      W.DefaultTokenSource (str "https://www.googleapis.com/auth/cloud-platform") w =
        (.ok ts, w1) ∧
      W.NewClient
        { InitAddress := [cfg.addr], RootCAs := cfg.rootCAs.foldl W.AddCert W.NewCertPool,
          AuthCredentialsFn := retrieveTokenFunc ts } w1 = (some err, w2) ∧
      e = .errorf (str "Failed to create client: ") (.lib err)) ∨
    (∃ (pre : List (Event ρ)) (r : ρ) (err : E),
      tr = pre ++ [.Do cmdSet r, .Close] ∧ W.Error r = some err ∧
      e = .errorf (str "Failed to set key/value: ") (.lib err)) ∨
    (∃ (pre : List (Event ρ)) (r : ρ) (err : E),
      tr = pre ++ [.Do cmdGet r, .Close] ∧ (W.ToString r).2 = some err ∧
      e = .errorf (str "Failed to get string: ") (.lib err)) := by
  revert h
  unfold run
  rcases hd : W.DefaultTokenSource (str "https://www.googleapis.com/auth/cloud-platform") w
    with ⟨r, w1⟩
  cases r with
  | error err =>
    intro h
    simp only [Prod.mk.injEq, Ret.returned.injEq, Option.some.injEq] at h
    exact Or.inl ⟨err, w1, rfl, h.1.symm⟩
  | ok ts =>
    simp only
    rcases hc : W.NewClient
        { InitAddress := [cfg.addr], RootCAs := cfg.rootCAs.foldl W.AddCert W.NewCertPool,
          AuthCredentialsFn := retrieveTokenFunc ts } w1 with ⟨e', w2⟩
    cases e' with
    | some err =>
      intro h
      simp only [Prod.mk.injEq, Ret.returned.injEq, Option.some.injEq] at h
      exact Or.inr (Or.inl ⟨ts, w1, err, w2, rfl, hc, h.1.symm⟩)
    | none =>
      simp only
      have hfail := sessionLoop_failure W fuel w2
      rcases h3 : sessionLoop W fuel w2 with ⟨ret, tr3, w3⟩
      rw [h3] at hfail
      cases ret with
      | running => intro h; simp at h
      | returned err =>
        intro h
        simp only [Prod.mk.injEq, Ret.returned.injEq] at h
        obtain ⟨herr, htr, -⟩ := h
        subst herr
        rcases hfail e tr3 w3 rfl with ⟨pre, r, err, hpre, hr, he⟩ | ⟨pre, r, err, hpre, hr, he⟩
        · refine Or.inr (Or.inr (Or.inl ⟨pre, r, err, ?_, hr, he⟩))
          rw [← htr, hpre]
          simp
        · refine Or.inr (Or.inr (Or.inr ⟨pre, r, err, ?_, hr, he⟩))
          rw [← htr, hpre]
          simp

/-- C8: `run` never returns success; and for every script of operation results whose first
failing operation is the `k`-th, `run` returns, as soon as the fuel covers that iteration and
for any larger fuel, the error of that operation wrapped with the context of its step, the
failing operation is the last one before the client is closed, and exactly `k + 1` operations
were issued. -/
theorem C8_first_failure_ends_loop :
    (∀ (σ Pool : Type) (W : World σ ρ Cert Pool E) (cfg : config Cert) (fuel : Nat) (w : σ),
      (run W cfg fuel w).1 ≠ .returned none) ∧
    (∀ (script : Nat → ρ) (Error : ρ → Option E) (ToString : ρ → GoString × Option E)
      (ts : TokenSource Nat E) (cfg : config Cert) (k fuel : Nat) (e : E),
      (∀ j, j < k →
        opError (scripted script Error ToString ts : World Nat ρ Cert Unit E) j (script j) =
          none) →
      opError (scripted script Error ToString ts : World Nat ρ Cert Unit E) k (script k) =
        some e →
      k / 2 < fuel →
      (run (scripted script Error ToString ts : World Nat ρ Cert Unit E) cfg fuel 0).1 =
          .returned (some (.errorf (opContext k) (.lib e))) ∧
        (∃ pre,
          (run (scripted script Error ToString ts : World Nat ρ Cert Unit E) cfg fuel 0).2.1 =
            pre ++ [.Do (if k % 2 = 0 then cmdSet else cmdGet) (script k), .Close]) ∧
        (run (scripted script Error ToString ts : World Nat ρ Cert Unit E) cfg fuel 0).2.2 =
          k + 1) := by
  refine ⟨fun σ Pool W cfg fuel w => run_never_success W cfg fuel w, ?_⟩
  intro script Error ToString ts cfg k fuel e hlt hk hf
  obtain ⟨pre, hpre⟩ := sessionLoop_scripted script Error ToString ts
    (scripted script Error ToString ts : World Nat ρ Cert Unit E) rfl k 0 fuel e
    (fun j hj => by simpa using hlt j hj) (by simpa using hk) hf
  simp only [Nat.zero_add] at hpre
  rw [run_scripted script Error ToString ts cfg fuel _ _ _ hpre]
  exact ⟨rfl, ⟨pre, by simp⟩, rfl⟩

/-- C9: the events of `run`, and of its loop, follow the Active pattern: a write of "key" with
"OK"; after a successful write a read of "key"; after a successful read the report of the
value read, the pause of one second, and again a write; and the first event of the loop is the
write. -/
theorem C9_alternating_operations {σ Pool : Type} (W : World σ ρ Cert Pool E)
    (cfg : config Cert) (fuel : Nat) (w : σ) :
    activePattern W .write (run W cfg fuel w).2.1 = true ∧
    activePattern W .write (sessionLoop W fuel w).2.1 = true ∧
    (sessionLoop W (fuel + 1) w).2.1.head? =
      some (.Do [str "SET", str "key", str "OK"] (W.Do cmdSet w).1) := by
  refine ⟨run_pattern W cfg fuel w, (sessionLoop_pattern W fuel w).1, ?_⟩
  cases h1 : W.Error (W.Do cmdSet w).1 with
  | some err => rw [sessionLoop_set_fail W fuel w err h1]; rfl
  | none =>
    cases h2 : (W.ToString (W.Do cmdGet (W.Do cmdSet w).2).1).2 with
    | some err => rw [sessionLoop_get_fail W fuel w err h1 h2]; rfl
    | none => rw [sessionLoop_ok W fuel w h1 h2]; rfl

end Session

theorem C8_first_failure_ends_loop_witness :
    (run sampleWorld sampleConfig 2 0).1 =
        .returned (some (.errorf (str "Failed to get string: ")
          (.lib (str "connection reset")))) ∧
      (∃ pre, (run sampleWorld sampleConfig 2 0).2.1 =
        pre ++ [.Do cmdGet (.failure (str "connection reset")), .Close]) ∧
      (run sampleWorld sampleConfig 2 0).2.2 = 4 :=
  C8_first_failure_ends_loop.2 sampleScript SampleResult.Error SampleResult.ToString
    twoTokens sampleConfig 3 2 (str "connection reset")
    (by intro j hj; interval_cases j <;> rfl) rfl (by decide)

/-- C10 as stated fails: on a CERTIFICATE block whose bytes are no certificate,
`parseX509Certificate` returns the error of the certificate parser as it is. -/
theorem C10_counterexample :
    parseX509Certificate sampleLib pemZeros =
        (none, some (.lib (str "x509: malformed certificate"))) ∧
      (GoError.lib (str "x509: malformed certificate") : GoError GoString).hasContext =
        false := by
  constructor
  · decide
  · rfl

/-- C10 amended: every error returned by `run` is the error of the step that failed, wrapped
with the context naming that step: the token source set-up, the client creation, or the write
or the read that is the last operation before the client is closed; every error returned by
`retrieveTokenFunc` is the token source's error wrapped with "Failed to get token: "; and an
error returned by `parseX509Certificate` is either its own error for a PEM block lookup that
found no CERTIFICATE block or the error of the certificate parser for the block's bytes,
handed on unchanged. -/
theorem C10_error_context {ρ Cert E : Type} :
    (∀ (σ Pool : Type) (W : World σ ρ Cert Pool E) (cfg : config Cert) (fuel : Nat) (w : σ)
      (e : GoError E), (run W cfg fuel w).1 = .returned (some e) →
      (∃ (err : E) (w1 : σ),
        W.DefaultTokenSource (str "https://www.googleapis.com/auth/cloud-platform") w =
          (.error err, w1) ∧
        e = .errorf (str "Failed to get default token source: ") (.lib err)) ∨
      (∃ (ts : TokenSource σ E) (w1 : σ) (err : E) (w2 : σ),
        W.DefaultTokenSource (str "https://www.googleapis.com/auth/cloud-platform") w =
          (.ok ts, w1) ∧
        W.NewClient
          { InitAddress := [cfg.addr], RootCAs := cfg.rootCAs.foldl W.AddCert W.NewCertPool,
            AuthCredentialsFn := retrieveTokenFunc ts } w1 = (some err, w2) ∧
        e = .errorf (str "Failed to create client: ") (.lib err)) ∨
      (∃ (pre : List (Event ρ)) (r : ρ) (err : E),
        (run W cfg fuel w).2.1 = pre ++ [.Do cmdSet r, .Close] ∧ W.Error r = some err ∧
        e = .errorf (str "Failed to set key/value: ") (.lib err)) ∨
      (∃ (pre : List (Event ρ)) (r : ρ) (err : E),
        (run W cfg fuel w).2.1 = pre ++ [.Do cmdGet r, .Close] ∧
        (W.ToString r).2 = some err ∧
        e = .errorf (str "Failed to get string: ") (.lib err))) ∧
    (∀ (σ : Type) (ts : TokenSource σ E) (ctx : AuthCredentialsContext) (w : σ)
      (e : GoError E), (retrieveTokenFunc ts ctx w).1.2 = some e →
      ∃ err : E, (ts.Token w).1 = .error err ∧
        e = .errorf (str "Failed to get token: ") (.lib err)) ∧
    (∀ (L : CertLib Cert E) (s : GoString) (e : GoError E),
      (parseX509Certificate L s).2 = some e →
      (e = .errorsNew (str "failed to find a suitable pem block type") ∧
        ((L.Decode (normalise s)).1 = none ∨
          ∃ b, (L.Decode (normalise s)).1 = some b ∧ b.Type_ ≠ str "CERTIFICATE")) ∨
      ∃ (b : Block) (err : E), (L.Decode (normalise s)).1 = some b ∧
        b.Type_ = str "CERTIFICATE" ∧ (L.ParseCertificate b.Bytes).2 = some err ∧
        e = .lib err) := by
  refine ⟨fun σ Pool W cfg fuel w e h =>
    run_failure W cfg fuel w e _ _ (Prod.ext h (Prod.ext rfl rfl)), ?_, ?_⟩
  · intro σ ts ctx w e h
    rw [retrieveTokenFunc_eq] at h
    cases hr : (ts.Token w).1 with
    | error err =>
      rw [hr] at h
      simp only [bridgeResult, Option.some.injEq] at h
      exact ⟨err, rfl, h.symm⟩
    | ok t =>
      rw [hr] at h
      simp [bridgeResult] at h
  · intro L s e h
    rw [parseX509Certificate_eq] at h
    cases hd : (L.Decode (normalise s)).1 with
    | none =>
      rw [hd] at h
      simp only [Option.some.injEq] at h
      exact Or.inl ⟨h.symm, Or.inl rfl⟩
    | some b =>
      rw [hd] at h
      by_cases ht : b.Type_ = str "CERTIFICATE"
      · simp only [ht, ne_eq, not_true_eq_false, if_false, Option.map_eq_some'] at h
        obtain ⟨err, herr, he⟩ := h
        exact Or.inr ⟨b, err, rfl, ht, herr, he.symm⟩
      · simp only [ne_eq, ht, not_false_eq_true, if_true, Option.some.injEq] at h
        exact Or.inl ⟨h.symm, Or.inr ⟨b, rfl, ht⟩⟩

theorem C10_error_context_witness :
    ((∃ (pre : List (Event SampleResult)) (r : SampleResult) (err : GoString),
        (run sampleWorld sampleConfig 2 0).2.1 = pre ++ [.Do cmdGet r, .Close] ∧
        sampleWorld.ToString r = ([], some err) ∧
        (GoError.errorf (str "Failed to get string: ") (.lib (str "connection reset")) :
          GoError GoString) = .errorf (str "Failed to get string: ") (.lib err))) ∧
    (∃ (b : Block) (err : GoString), (sampleLib.Decode (normalise pemZeros)).1 = some b ∧
        b.Type_ = str "CERTIFICATE" ∧ (sampleLib.ParseCertificate b.Bytes).2 = some err ∧
        (GoError.lib (str "x509: malformed certificate") : GoError GoString) = .lib err) := by
  have hrun := (@C10_error_context SampleResult GoString GoString).1 Nat Unit sampleWorld
    sampleConfig 2 0 (.errorf (str "Failed to get string: ") (.lib (str "connection reset")))
    (by decide)
  have hparse := (@C10_error_context Unit SampleCert GoString).2.2 sampleLib pemZeros
    (.lib (str "x509: malformed certificate")) (by decide)
  refine ⟨?_, ?_⟩
  · rcases hrun with ⟨err, w1, hd, -⟩ | ⟨ts, w1, err, w2, -, hc, -⟩ |
      ⟨pre, r, err, -, -, he⟩ | ⟨pre, r, err, htr, hr, he⟩
    · exact absurd (congrArg Prod.fst hd) (by simp [sampleWorld, scripted])
    · exact absurd (congrArg Prod.fst hc) (by simp [sampleWorld, scripted])
    · exact absurd (GoError.errorf.inj he).1 (by decide)
    · refine ⟨pre, r, err, htr, ?_, he⟩
      cases r with
      | value v => simp [sampleWorld, scripted, SampleResult.ToString] at hr
      | failure m =>
        simp only [sampleWorld, scripted, SampleResult.ToString, Option.some.injEq] at hr
        simp [sampleWorld, scripted, SampleResult.ToString, hr]
  · rcases hparse with ⟨he, -⟩ | h
    · exact absurd he (by decide)
    · exact h

end Valkey
